import Mathlib

/-!
Verification development for the LastPass CLI login endpoint
(src/endpoints-login.c). The login protocol state machine is embedded
shallowly: the external collaborators declared out of scope by the design
document (transport, wire-format parsing, interactive prompting, persistent
configuration, randomness) are modelled as explicit parameters and a parsed
response record, while every decision made by endpoints-login.c itself
(field-array updates, redirection, capability parsing, the multifactor
table, the out-of-band poll loop, error-message selection) is translated
function by function. Network loops are given an explicit fuel argument;
running out of fuel is reported by a dedicated result constructor.
-/

namespace LastPassLogin

/-- Form parameter update, mirroring append_post in endpoints-login.c. The C
code keeps a flat NULL-terminated array of alternating names and values and
advances one slot at a time (over names and values alike) until it reaches a
slot equal to `name` or the terminator; it then writes `name` into that slot
and `val` into the following slot. The list models the non-NULL prefix. -/
def append_post : List String → String → String → List String
  | [], name, val => [name, val]
  | a :: rest, name, val =>
    if a = name then
      match rest with
      | [] => [name, val]
      | _ :: rest2 => name :: val :: rest2
    else a :: append_post rest name val

/-- Flat form of an entry list: the alternating name/value array that
append_post operates on. -/
def flattenEntries : List (String × String) → List String
  | [] => []
  | (n, v) :: rest => n :: v :: flattenEntries rest

/-- Spec-side description of FormParameterSet.set, written from the design
document's words: replace the value of the first entry carrying the name in
place, otherwise append a new entry at the end. Compared against append_post
by the refinement theorem for the FormParameterSet claim. -/
def setEntry : List (String × String) → String → String → List (String × String)
  | [], name, val => [(name, val)]
  | (n, v) :: rest, name, val =>
    if n = name then (name, val) :: rest
    else (n, v) :: setEntry rest name val

/-- The identifier alphabet literal of calculate_trust_id. -/
def trust_alphabet : String :=
  "abcdefghijklmnopqrstuvwxyzABCDEFGHIJKLMNOPQRSTUVWXYZ1234567890!@#$"

/-- Modelled from the spec: range_rand lives in util.c, which is not under
src/; the design document declares the collaborator
random.uniform(min, max) -> integer with a uniform result in [lo, hi),
consistently with its statement that every generated character is drawn
from the fixed alphabet. The abstract stream value r supplies the draw. -/
def range_rand (r lo hi : Nat) : Nat := lo + r % (hi - lo)

/-- The 32-character identifier built by calculate_trust_id from a stream of
random draws, one per character position. -/
def genTrustId (rng : Nat → Nat) : String :=
  String.mk ((List.range 32).map
    (fun i => trust_alphabet.toList.getD (range_rand (rng i) 0 66) 'a'))

/-- Modelled from the spec: config.read_string / config.write_string
(config.c is not under src/) reduced to the single key "trusted_id" that
endpoints-login.c uses. -/
structure Config where
  trusted_id : Option String
  deriving DecidableEq

/-- Mirror of calculate_trust_id: return the persisted id when present;
when absent and force is set, generate a fresh id, persist it and return
it; otherwise return nothing. -/
def calculate_trust_id (force : Bool) (cfg : Config) (rng : Nat → Nat) :
    Option String × Config :=
  match cfg.trusted_id with
  | some id => (some id, cfg)
  | none =>
    if force then (some (genTrustId rng), ⟨some (genTrustId rng)⟩)
    else (none, cfg)

/-- One row of the static multifactor table. -/
structure MultifactorType where
  name : String
  error_str : String
  error_failure_str : String
  post_var : String
  deriving DecidableEq

/-- The five-entry multifactor_types table, in source order. -/
def multifactor_types : List MultifactorType :=
  [⟨"Google Authenticator Code", "googleauthrequired", "googleauthfailed", "otp"⟩,
   ⟨"YubiKey OTP", "otprequired", "otpfailed", "otp"⟩,
   ⟨"Sesame OTP", "sesameotprequired", "sesameotpfailed", "sesameotp"⟩,
   ⟨"Out-of-Band OTP", "outofbandrequired", "multifactorresponsefailed", "otp"⟩,
   ⟨"Microsoft Authenticator Code", "microsoftauthrequired", "microsoftauthfailed", "otp"⟩]

/-- The linear scan of multifactor_types performed by otp_login: the first
entry whose error_str equals the cause exactly. -/
def find_multifactor (cause : String) : Option MultifactorType :=
  multifactor_types.find? (fun m => m.error_str = cause)

/-- The sentence that filter_error_message truncates at. -/
def upgrade_note : String := " Upgrade your browser extension so you can enter it."

/-- Index of the first occurrence of pat in a character list (the strstr
scan underlying filter_error_message). -/
def firstOccur (pat : List Char) : List Char → Option Nat
  | [] => if pat.isPrefixOf ([] : List Char) then some 0 else none
  | c :: rest =>
    if pat.isPrefixOf (c :: rest) then some 0
    else (firstOccur pat rest).map (fun i => i + 1)

/-- Mirror of filter_error_message: cut the message at the first occurrence
of the upgrade sentence, if any. -/
def filter_error_message (m : String) : String :=
  match firstOccur upgrade_note.toList m.toList with
  | some i => String.mk (m.toList.take i)
  | none => m

/-- Payload of a session extracted and validated by the wire-format
collaborator (xml_ok_session); the server field is attached separately by
the login code. -/
structure SessionData where
  token : String
  deriving DecidableEq

/-- A session as the login code returns it: the validated payload plus the
server name the code itself stores into it. -/
structure Session where
  data : SessionData
  server : String
  deriving DecidableEq

/-- Modelled from the spec: the outcome of the wire-format collaborators on
one raw response (protocol.parse_session and protocol.extract_field over
xml.c, which is not under src/). ok_session is the session payload when the
response validates against the derived key; the remaining fields are the
optional error-record fields endpoints-login.c extracts. -/
structure Response where
  ok_session : Option SessionData
  cause : Option String
  message : Option String
  server : Option String
  outofbandname : Option String
  capabilities : Option String
  retryid : Option String
  deriving DecidableEq

/-- Modelled from the spec: transport.post(server, path, formFields);
the path is always "login.php" here, so it is dropped. -/
abbrev Transport := String → List String → Option Response

/-- Mirror of error_message: surface the response's "message" field after
filtering, or the fixed parse-failure text when the field is absent. -/
def error_message_str (r : Response) : String :=
  match r.message with
  | some m => filter_error_message m
  | none => "Could not parse error message to login request."

/-- The error_message behaviour over a possibly absent raw reply (the C
code can reach it with *reply == NULL only on paths that never materialize,
but the model keeps the reply optional for faithful threading). -/
def error_message_opt : Option Response → String
  | some r => error_message_str r
  | none => "Could not parse error message to login request."

/-- Comma tokenizer mirroring the strtok loop of has_capabilities: maximal
nonempty runs of non-comma characters, empty tokens skipped. -/
def strtok_go : List Char → List Char → List String
  | [], acc => if acc = [] then [] else [String.mk acc.reverse]
  | c :: rest, acc =>
    if c = ',' then
      if acc = [] then strtok_go rest []
      else String.mk acc.reverse :: strtok_go rest []
    else strtok_go rest (c :: acc)

/-- The comma-separated token list of a capabilities string. -/
def strtok_split (s : String) : List String := strtok_go s.toList []

/-- The token comparison loop of has_capabilities. -/
def has_capabilities_list : List String → String → Bool
  | [], _ => false
  | tok :: rest, capability =>
    if capability = tok then true else has_capabilities_list rest capability

/-- Mirror of has_capabilities: whether the capabilities string, split on
commas, contains the capability exactly. -/
def has_capabilities (capabilities capability : String) : Bool :=
  has_capabilities_list (strtok_split capabilities) capability

/-- Modelled from the spec: the primary server constant LASTPASS_SERVER is
defined in endpoints.h, which is not under src/. Only the fact that it is
the primary (non-.eu) host matters to the claims. -/
def LASTPASS_SERVER : String := "lastpass.com"

/-- Result of ordinary_login. finished covers all paths on which the C
function returns true (session and/or message out-parameters set);
challenge covers the false return, carrying the cause, the server actually
used (ret_login_server) and the final raw reply. -/
inductive OrdResult where
  | finished (session : Option Session) (message : Option String)
  | challenge (cause : String) (server : String) (reply : Response)
  | out_of_fuel
  deriving DecidableEq

/-- Mirror of ordinary_login: post the form; on transport failure report
the fixed post-error message; on a validated session stamp the server name
used for this cycle; on a reply naming the alternate regional host re-run
the whole attempt against it with the same fields (the C recursion, fueled
here); otherwise surface the cause or the no-cause error. -/
def ordinary_login (t : Transport) : Nat → String → List String → OrdResult
  | 0, _, _ => .out_of_fuel
  | fuel+1, login_server, args =>
    match t login_server args with
    | none => .finished none (some "Unable to post login request.")
    | some reply =>
      match reply.ok_session with
      | some sd => .finished (some ⟨sd, login_server⟩) none
      | none =>
        if reply.server = some "lastpass.eu" then
          ordinary_login t fuel "lastpass.eu" args
        else
          match reply.cause with
          | none => .finished none (some "Unable to determine login failure cause.")
          | some c => .challenge c login_server reply

/-- Number of redirection hops ordinary_login performs, following exactly
the same branch structure. -/
def ordinary_hops (t : Transport) : Nat → String → List String → Nat
  | 0, _, _ => 0
  | fuel+1, login_server, args =>
    match t login_server args with
    | none => 0
    | some reply =>
      match reply.ok_session with
      | some _ => 0
      | none =>
        if reply.server = some "lastpass.eu" then
          ordinary_hops t fuel "lastpass.eu" args + 1
        else 0

/-- A reply that carries only a redirection to the alternate regional host. -/
def redirect_reply : Response := ⟨none, none, none, some "lastpass.eu", none, none, none⟩

/-- Result of oob_login. success and failure cover the true returns of the
C function (session or message set); fallback covers the false return used
to hand over to the multifactor handler, carrying the suffixed display
name. -/
inductive OobResult where
  | success (s : Session)
  | failure (msg : String)
  | fallback (oob_name : String)
  | out_of_fuel
  deriving DecidableEq

/-- Mirror of the out-of-band poll loop of oob_login, threading the mutated
form fields and the latest raw reply (None after a failed post). -/
def oob_poll_loop (t : Transport) (can_do_passcode : Bool) (oob_name : String)
    (login_server : String) : Nat → List String → OobResult × List String × Option Response
  | 0, args => (.out_of_fuel, args, none)
  | fuel+1, args =>
    match t login_server args with
    | none =>
      if can_do_passcode then
        (.fallback (oob_name ++ " OTP"),
         append_post (append_post (append_post args "outofbandrequest" "0")
           "outofbandretry" "0") "outofbandretryid" "",
         none)
      else (.failure "Unable to post login request.", args, none)
    | some reply =>
      match reply.ok_session with
      | some sd => (.success ⟨sd, login_server⟩, args, some reply)
      | none =>
        if reply.cause = some "outofbandrequired" then
          oob_poll_loop t can_do_passcode oob_name login_server fuel
            (append_post (append_post args "outofbandretry" "1")
              "outofbandretryid" (reply.retryid.getD ""))
        else (.failure (error_message_str reply), args, some reply)

/-- Mirror of oob_login's preamble: require the outofbandname and
capabilities fields; divert passcode-only methods to the multifactor
handler before any polling; otherwise set outofbandrequest=1 and enter the
poll loop. The progress indicator and status line are display-only. -/
def oob_login (t : Transport) (fuel : Nat) (login_server : String)
    (args : List String) (r : Response) : OobResult × List String × Option Response :=
  match r.outofbandname, r.capabilities with
  | some oname, some caps =>
    if has_capabilities caps "passcode" && !(has_capabilities caps "outofband") then
      (.fallback (oname ++ " OTP"), args, some r)
    else
      oob_poll_loop t (has_capabilities caps "passcode") oname login_server fuel
        (append_post args "outofbandrequest" "1")
  | _, _ => (.failure "Could not determine out-of-band type.", args, some r)

/-- Result of otp_login; every C return path sets either the session or the
message, so the bool return is always true there. -/
inductive OtpResult where
  | success (s : Session)
  | failure (msg : String)
  | out_of_fuel
  deriving DecidableEq

/-- Mirror of the retry loop of otp_login. The prompt collaborator is a
stream indexed by iteration (prompt.read_secret of the spec); the display
name and the invalid-code annotation only shape the prompt text, which the
stream abstracts, so they do not appear. -/
def otp_loop (t : Transport) (prompts : Nat → Option String) (mt : MultifactorType)
    (login_server : String) : Nat → Nat → List String → OtpResult
  | 0, _, _ => .out_of_fuel
  | fuel+1, i, args =>
    match prompts i with
    | none => .failure "Aborted multifactor authentication."
    | some code =>
      match t login_server (append_post args mt.post_var code) with
      | none => .failure "Unable to post login request."
      | some reply =>
        match reply.ok_session with
        | some sd => .success ⟨sd, login_server⟩
        | none =>
          if reply.cause = some mt.error_failure_str then
            otp_loop t prompts mt login_server fuel (i+1) (append_post args mt.post_var code)
          else .failure (error_message_str reply)

/-- Mirror of otp_login: resolve the cause against the multifactor table;
on a miss propagate the server's own message; on a hit run the retry loop.
otp_name and username feed only the prompt text. -/
def otp_login (t : Transport) (prompts : Nat → Option String) (fuel : Nat)
    (login_server : String) (args : List String) (otp_name : Option String)
    (cause username : String) (reply : Option Response) : OtpResult :=
  match find_multifactor cause with
  | none => .failure (error_message_opt reply)
  | some mt => otp_loop t prompts mt login_server fuel 0 args

/-- Mirror of xstrlower (ASCII lowercasing of the username). -/
def xstrlower (s : String) : String := String.mk (s.toList.map Char.toLower)

/-- The first seven fixed fields of the initial form, in source order. -/
def base7 (user_lower hash iters : String) : List String :=
  append_post (append_post (append_post (append_post (append_post (append_post
    (append_post [] "xml" "2") "username" user_lower) "hash" hash)
    "iterations" iters) "includeprivatekeyenc" "1") "method" "cli")
    "outofbandsupported" "1"

/-- The initial form of lastpass_login before the uuid decision: the seven
fixed fields plus, when a fragment id is supplied, the two fragment fields
carrying the same value. -/
def base_args (user_lower hash iters : String) (fragment : Option String) : List String :=
  match fragment with
  | some f =>
    append_post (append_post (base7 user_lower hash iters) "alpfragmentid" f)
      "calculatedfragmentid" f
  | none => base7 user_lower hash iters

/-- Mirror of the argument-building prelude of lastpass_login: compute the
trust id with force equal to the trust flag, build the fixed fields, and
attach the uuid field exactly when a trust id resulted. Returns the form
and the configuration state after calculate_trust_id. -/
def build_initial (username hash iters : String) (fragment : Option String)
    (trust : Bool) (cfg : Config) (rng : Nat → Nat) : List String × Config :=
  match (calculate_trust_id trust cfg rng).1 with
  | some tr =>
    (append_post (base_args (xstrlower username) hash iters fragment) "uuid" tr,
     (calculate_trust_id trust cfg rng).2)
  | none =>
    (base_args (xstrlower username) hash iters fragment,
     (calculate_trust_id trust cfg rng).2)

/-- Overall outcome of lastpass_login: done carries the session return
value together with the error-message out-parameter; null_deref marks the
trust.php enrollment call evaluating session->token with a NULL session
(endpoints-login.c line 358), which dereferences NULL instead of returning
to the caller. -/
inductive LpResult where
  | done (session : Option Session) (message : Option String)
  | null_deref
  | out_of_fuel
  deriving DecidableEq

/-- The names of the fields lastpass_login itself places into the initial
form (including the conditional ones). -/
def login_field_names : List String :=
  ["xml", "username", "hash", "iterations", "includeprivatekeyenc", "method",
   "outofbandsupported", "alpfragmentid", "calculatedfragmentid", "uuid"]

/-- Mirror of lastpass_login: build the initial form, run the ordinary
attempt against the primary server, and on a challenge attach the trust
label when requested, dispatch the out-of-band cause to oob_login (falling
back to otp_login on its false return, with the suffixed name and the
threaded fields and reply) and every other cause to otp_login. The label
stands in for calculate_trust_label (uname(2) is environment-fatal, not a
login outcome). Whenever oob_login returns true and trust is set, the code
posts the trust.php enrollment form, passing session->token: with a session
present this is a best-effort transport effect that leaves the returned
session untouched, but when oob_login finished with an error and a NULL
session, evaluating session->token dereferences NULL — the null_deref
outcome. -/
def lastpass_login (t : Transport) (prompts : Nat → Option String) (label : String)
    (cfg : Config) (rng : Nat → Nat) (fuel : Nat) (username : String)
    (fragment : Option String) (hash : String) (iterations : Nat) (trust : Bool) : LpResult :=
  match ordinary_login t fuel LASTPASS_SERVER
      (build_initial username hash (toString iterations) fragment trust cfg rng).1 with
  | .out_of_fuel => .out_of_fuel
  | .finished sess msg => .done sess msg
  | .challenge cause login_server reply =>
    if cause = "outofbandrequired" then
      match oob_login t fuel login_server
          (if trust then
            append_post (build_initial username hash (toString iterations) fragment trust cfg rng).1
              "trustlabel" label
           else (build_initial username hash (toString iterations) fragment trust cfg rng).1)
          reply with
      | (.success s, _, _) => .done (some s) none
      | (.failure m, _, _) => if trust then .null_deref else .done none (some m)
      | (.out_of_fuel, _, _) => .out_of_fuel
      | (.fallback oname, args2, reply2) =>
        match otp_login t prompts fuel login_server args2 (some oname) cause
            (xstrlower username) reply2 with
        | .success s => .done (some s) none
        | .failure m => .done none (some m)
        | .out_of_fuel => .out_of_fuel
    else
      match otp_login t prompts fuel login_server
          (if trust then
            append_post (build_initial username hash (toString iterations) fragment trust cfg rng).1
              "trustlabel" label
           else (build_initial username hash (toString iterations) fragment trust cfg rng).1)
          none cause (xstrlower username) (some reply) with
      | .success s => .done (some s) none
      | .failure m => .done none (some m)
      | .out_of_fuel => .out_of_fuel

/-- A reply carrying a validated session payload and nothing else. -/
def ok_reply : Response := ⟨some ⟨"tok"⟩, none, none, none, none, none, none⟩

/-- Scenario-D transport: the primary host redirects, the alternate host
returns a session. -/
def redirecting_then_ok : Transport :=
  fun srv _ => if srv = "lastpass.eu" then some ok_reply else some redirect_reply

/-- A transport that always redirects to the alternate regional host. -/
def always_redirect : Transport := fun _ _ => some redirect_reply

/-- A transport that never returns a response. -/
def no_transport : Transport := fun _ _ => none

/-- A prompt stream on which the user aborts immediately. -/
def no_prompts : Nat → Option String := fun _ => none

/-- A reply with no message field at all. -/
def bare_reply : Response := ⟨none, none, none, none, none, none, none⟩

/-- The message text used to exercise the upgrade-sentence filter. -/
def upgrade_message : String :=
  "Wrong code. Upgrade your browser extension so you can enter it."

/-- A reply whose message carries the upgrade sentence. -/
def upgrade_reply : Response := ⟨none, none, some upgrade_message, none, none, none, none⟩

/-- A reply announcing a passcode-capable out-of-band method that also
supports true out-of-band approval. -/
def oob_both_reply : Response :=
  ⟨none, none, none, none, some "Duo", some "passcode,outofband", none⟩

/-- A reply announcing a passcode-only method disguised as out-of-band. -/
def oob_passcode_reply : Response :=
  ⟨none, none, none, none, some "Duo", some "passcode", none⟩

/-- A failed-login reply demanding out-of-band approval with no passcode
fallback. -/
def oob_challenge_reply : Response :=
  ⟨none, some "outofbandrequired", none, none, some "Duo", some "outofband", none⟩

/-- A transport that answers the initial login post with the out-of-band
challenge and then fails every poll post (the polls carry the
outofbandrequest field). -/
def oob_then_fail : Transport :=
  fun _ args => if args.contains "outofbandrequest" then none else some oob_challenge_reply

/-! Helper lemmas shared by the claim theorems. -/

theorem getD_mem {α : Type} (l : List α) (i : Nat) (d : α) (h : i < l.length) :
    l.getD i d ∈ l := by
  induction l generalizing i with
  | nil => simp at h
  | cons a rest ih =>
    cases i with
    | zero => simp
    | succ j =>
      rw [List.getD_cons_succ]
      exact List.mem_cons_of_mem _ (ih j (by simpa using h))

theorem append_post_fresh (l : List String) (n v : String) (h : n ∉ l) :
    append_post l n v = l ++ [n, v] := by
  induction l with
  | nil => rfl
  | cons a rest ih =>
    have ha : ¬(a = n) := fun hh => h (hh ▸ List.mem_cons_self a rest)
    simp only [append_post, if_neg ha, List.cons_append]
    rw [ih (fun hm => h (List.mem_cons_of_mem _ hm))]

theorem not_mem_append_post (l : List String) (x n v : String)
    (hn : x ≠ n) (hv : x ≠ v) (hl : x ∉ l) : x ∉ append_post l n v := by
  induction l with
  | nil => simp [append_post, hn, hv]
  | cons a rest ih =>
    by_cases ha : a = n
    · simp only [append_post, if_pos ha]
      cases rest with
      | nil => simp [hn, hv]
      | cons b r2 =>
        have h2 : x ∉ r2 := fun hm => hl (by simp [hm])
        simp [hn, hv, h2]
    · simp only [append_post, if_neg ha]
      have hxa : x ≠ a := fun hh => hl (hh ▸ List.mem_cons_self a rest)
      have hrest : x ∉ rest := fun hm => hl (List.mem_cons_of_mem _ hm)
      simp [hxa, ih hrest]

theorem append_post_flatten (es : List (String × String)) (n v : String)
    (h : ∀ p ∈ es, p.2 ≠ n) :
    append_post (flattenEntries es) n v = flattenEntries (setEntry es n v) := by
  induction es with
  | nil => rfl
  | cons p rest ih =>
    obtain ⟨a, b⟩ := p
    by_cases ha : a = n
    · subst ha
      simp [flattenEntries, append_post, setEntry]
    · have hb : b ≠ n := h (a, b) (List.mem_cons_self _ _)
      simp only [flattenEntries, append_post, if_neg ha, if_neg hb, setEntry]
      exact congrArg _ (congrArg _ (ih (fun q hq => h q (List.mem_cons_of_mem _ hq))))

theorem setEntry_names (es : List (String × String)) (n v : String) :
    (setEntry es n v).map Prod.fst =
      (if n ∈ es.map Prod.fst then es.map Prod.fst else es.map Prod.fst ++ [n]) := by
  induction es with
  | nil => simp [setEntry]
  | cons p rest ih =>
    obtain ⟨a, b⟩ := p
    by_cases ha : a = n
    · subst ha
      simp [setEntry]
    · simp only [setEntry, if_neg ha, List.map_cons, ih]
      by_cases hm : n ∈ rest.map Prod.fst
      · simp [hm, ha, Ne.symm ha]
      · simp [hm, ha, Ne.symm ha]

theorem setEntry_value (es : List (String × String)) (n v : String)
    (hnd : (es.map Prod.fst).Nodup) :
    ∀ p ∈ setEntry es n v, p.1 = n → p.2 = v := by
  induction es with
  | nil =>
    intro p hp h1
    simp [setEntry] at hp
    rw [hp]
  | cons q rest ih =>
    obtain ⟨a, b⟩ := q
    have hnd2 : (rest.map Prod.fst).Nodup := (List.nodup_cons.mp (by simpa using hnd)).2
    by_cases ha : a = n
    · intro p hp h1
      rw [setEntry] at hp
      rw [if_pos ha] at hp
      rcases List.mem_cons.mp hp with h | h
      · rw [h]
      · exfalso
        have hnot : a ∉ rest.map Prod.fst := (List.nodup_cons.mp (by simpa using hnd)).1
        exact hnot (ha ▸ h1 ▸ List.mem_map_of_mem Prod.fst h)
    · intro p hp h1
      rw [setEntry] at hp
      rw [if_neg ha] at hp
      rcases List.mem_cons.mp hp with h | h
      · rw [h] at h1
        exact absurd h1 ha
      · exact ih hnd2 p h h1

theorem has_capabilities_list_of_mem (l : List String) (x : String) (h : x ∈ l) :
    has_capabilities_list l x = true := by
  induction l with
  | nil => cases h
  | cons a rest ih =>
    rcases List.mem_cons.mp h with h1 | h1
    · simp [has_capabilities_list, h1]
    · by_cases hx : x = a
      · simp [has_capabilities_list, hx]
      · simp [has_capabilities_list, hx, ih h1]

theorem has_capabilities_list_of_not_mem (l : List String) (x : String) (h : x ∉ l) :
    has_capabilities_list l x = false := by
  induction l with
  | nil => rfl
  | cons a rest ih =>
    have hx : x ≠ a := fun hh => h (hh ▸ List.mem_cons_self a rest)
    simp [has_capabilities_list, hx, ih (fun hm => h (List.mem_cons_of_mem _ hm))]

theorem firstOccur_of_isPre (pat l : List Char) (h : pat.isPrefixOf l = true) :
    firstOccur pat l = some 0 := by
  cases l with
  | nil => rw [firstOccur, if_pos h]
  | cons c rest => rw [firstOccur, if_pos h]

theorem firstOccur_take_drop (pat : List Char) :
    ∀ (l : List Char) (i : Nat), firstOccur pat l = some i →
      i ≤ l.length ∧ pat.isPrefixOf (l.drop i) = true := by
  intro l
  induction l with
  | nil =>
    intro i h
    by_cases hp : pat.isPrefixOf ([] : List Char) = true
    · rw [firstOccur, if_pos hp] at h
      injection h with h
      subst h
      exact ⟨Nat.le_refl 0, hp⟩
    · rw [firstOccur, if_neg hp] at h
      cases h
  | cons c rest ih =>
    intro i h
    by_cases hp : pat.isPrefixOf (c :: rest) = true
    · rw [firstOccur, if_pos hp] at h
      injection h with h
      subst h
      exact ⟨Nat.zero_le _, hp⟩
    · rw [firstOccur, if_neg hp] at h
      cases hf : firstOccur pat rest with
      | none => rw [hf] at h; cases h
      | some j =>
        rw [hf] at h
        have h2 : some (j + 1) = some i := h
        injection h2 with h
        obtain ⟨hlen, hpre⟩ := ih j hf
        subst h
        constructor
        · simpa using Nat.succ_le_succ hlen
        · simpa using hpre

theorem firstOccur_of_decomp (pat pre post : List Char) :
    ∃ i, firstOccur pat (pre ++ pat ++ post) = some i := by
  induction pre with
  | nil =>
    refine ⟨0, firstOccur_of_isPre _ _ ?_⟩
    simp only [List.nil_append]
    exact List.isPrefixOf_iff_prefix.mpr (List.prefix_append pat post)
  | cons c pre2 ih =>
    have he : (c :: pre2) ++ pat ++ post = c :: (pre2 ++ pat ++ post) := by
      simp [List.cons_append]
    by_cases hp : pat.isPrefixOf (c :: (pre2 ++ pat ++ post)) = true
    · refine ⟨0, ?_⟩
      rw [he]
      exact firstOccur_of_isPre _ _ hp
    · obtain ⟨j, hj⟩ := ih
      refine ⟨j + 1, ?_⟩
      rw [he, firstOccur, if_neg hp, hj]
      rfl

theorem mk_toList (l : List Char) : (String.mk l).toList = l := rfl

theorem ord_success_origin (t : Transport) :
    ∀ (fuel : Nat) (server : String) (args : List String) (s : Session) (msg : Option String),
      ordinary_login t fuel server args = OrdResult.finished (some s) msg →
      (s.server = server ∨ s.server = "lastpass.eu") ∧
      ∃ rep, t s.server args = some rep ∧ rep.ok_session = some s.data := by
  intro fuel
  induction fuel with
  | zero =>
    intro server args s msg h
    simp [ordinary_login] at h
  | succ n ih =>
    intro server args s msg h
    rw [ordinary_login] at h
    cases ht : t server args with
    | none =>
      rw [ht] at h
      simp at h
    | some reply =>
      rw [ht] at h
      simp only [] at h
      cases hs : reply.ok_session with
      | some sd =>
        rw [hs] at h
        simp only [OrdResult.finished.injEq, Option.some.injEq] at h
        obtain ⟨h1, _⟩ := h
        refine ⟨Or.inl (by rw [← h1]), reply, ?_, ?_⟩
        · rw [← h1]
          exact ht
        · rw [← h1, hs]
      | none =>
        rw [hs] at h
        simp only [] at h
        by_cases hr : reply.server = some "lastpass.eu"
        · rw [if_pos hr] at h
          obtain ⟨h1, h2⟩ := ih "lastpass.eu" args s msg h
          exact ⟨Or.inr (h1.elim id id), h2⟩
        · rw [if_neg hr] at h
          cases hc : reply.cause with
          | none => rw [hc] at h; simp at h
          | some c => rw [hc] at h; simp at h

theorem ord_none_msg (t : Transport) :
    ∀ (fuel : Nat) (server : String) (args : List String) (msg : Option String),
      ordinary_login t fuel server args = OrdResult.finished none msg → msg ≠ none := by
  intro fuel
  induction fuel with
  | zero =>
    intro server args msg h
    simp [ordinary_login] at h
  | succ n ih =>
    intro server args msg h
    rw [ordinary_login] at h
    cases ht : t server args with
    | none =>
      rw [ht] at h
      simp only [OrdResult.finished.injEq] at h
      rw [← h.2]
      simp
    | some reply =>
      rw [ht] at h
      simp only [] at h
      cases hs : reply.ok_session with
      | some sd => rw [hs] at h; simp at h
      | none =>
        rw [hs] at h
        simp only [] at h
        by_cases hr : reply.server = some "lastpass.eu"
        · rw [if_pos hr] at h
          exact ih "lastpass.eu" args msg h
        · rw [if_neg hr] at h
          cases hc : reply.cause with
          | none =>
            rw [hc] at h
            simp only [OrdResult.finished.injEq] at h
            rw [← h.2]
            simp
          | some c => rw [hc] at h; simp at h

theorem otp_success_origin (t : Transport) (prompts : Nat → Option String)
    (mt : MultifactorType) (login_server : String) :
    ∀ (fuel i : Nat) (args : List String) (s : Session),
      otp_loop t prompts mt login_server fuel i args = OtpResult.success s →
      s.server = login_server ∧
      ∃ args2 rep, t login_server args2 = some rep ∧ rep.ok_session = some s.data := by
  intro fuel
  induction fuel with
  | zero =>
    intro i args s h
    simp [otp_loop] at h
  | succ n ih =>
    intro i args s h
    rw [otp_loop] at h
    cases hp : prompts i with
    | none => rw [hp] at h; simp at h
    | some code =>
      rw [hp] at h
      simp only [] at h
      cases ht : t login_server (append_post args mt.post_var code) with
      | none => rw [ht] at h; simp at h
      | some reply =>
        rw [ht] at h
        simp only [] at h
        cases hs : reply.ok_session with
        | some sd =>
          rw [hs] at h
          simp only [OtpResult.success.injEq] at h
          refine ⟨by rw [← h], append_post args mt.post_var code, reply, ht, ?_⟩
          rw [← h, hs]
        | none =>
          rw [hs] at h
          simp only [] at h
          by_cases hc : reply.cause = some mt.error_failure_str
          · rw [if_pos hc] at h
            exact ih (i+1) (append_post args mt.post_var code) s h
          · rw [if_neg hc] at h
            simp at h

theorem oob_success_origin (t : Transport) (can : Bool) (oname login_server : String) :
    ∀ (fuel : Nat) (args : List String) (s : Session) (args2 : List String)
      (rep2 : Option Response),
      oob_poll_loop t can oname login_server fuel args = (OobResult.success s, args2, rep2) →
      s.server = login_server ∧
      ∃ args3 rep, t login_server args3 = some rep ∧ rep.ok_session = some s.data := by
  intro fuel
  induction fuel with
  | zero =>
    intro args s args2 rep2 h
    simp [oob_poll_loop] at h
  | succ n ih =>
    intro args s args2 rep2 h
    rw [oob_poll_loop] at h
    cases ht : t login_server args with
    | none =>
      rw [ht] at h
      by_cases hcan : can = true
      · rw [if_pos hcan] at h
        simp at h
      · rw [if_neg hcan] at h
        simp at h
    | some reply =>
      rw [ht] at h
      simp only [] at h
      cases hs : reply.ok_session with
      | some sd =>
        rw [hs] at h
        simp only [Prod.mk.injEq, OobResult.success.injEq] at h
        refine ⟨by rw [← h.1], args, reply, ht, ?_⟩
        rw [← h.1, hs]
      | none =>
        rw [hs] at h
        simp only [] at h
        by_cases hc : reply.cause = some "outofbandrequired"
        · rw [if_pos hc] at h
          exact ih _ s args2 rep2 h
        · rw [if_neg hc] at h
          simp at h

theorem oob_login_success_origin (t : Transport) (fuel : Nat) (login_server : String)
    (args : List String) (r : Response) (s : Session) (args2 : List String)
    (rep2 : Option Response)
    (h : oob_login t fuel login_server args r = (OobResult.success s, args2, rep2)) :
    s.server = login_server ∧
    ∃ args3 rep, t login_server args3 = some rep ∧ rep.ok_session = some s.data := by
  rw [oob_login] at h
  cases hn : r.outofbandname with
  | none => rw [hn] at h; simp at h
  | some oname =>
    rw [hn] at h
    cases hc : r.capabilities with
    | none => rw [hc] at h; simp at h
    | some caps =>
      rw [hc] at h
      simp only [] at h
      by_cases hb : (has_capabilities caps "passcode" && !(has_capabilities caps "outofband")) = true
      · rw [if_pos hb] at h
        simp at h
      · rw [if_neg hb] at h
        exact oob_success_origin t _ oname login_server fuel _ s args2 rep2 h

theorem find_mf_none (cause : String)
    (h : ∀ m ∈ multifactor_types, m.error_str ≠ cause) :
    find_multifactor cause = none := by
  rw [find_multifactor, List.find?_eq_none]
  intro m hm
  simp only [decide_eq_true_eq]
  exact h m hm

theorem otp_login_success_origin (t : Transport) (prompts : Nat → Option String)
    (fuel : Nat) (login_server : String) (args : List String) (otp_name : Option String)
    (cause username : String) (reply : Option Response) (s : Session)
    (h : otp_login t prompts fuel login_server args otp_name cause username reply =
      OtpResult.success s) :
    s.server = login_server ∧
    ∃ args2 rep, t login_server args2 = some rep ∧ rep.ok_session = some s.data := by
  rw [otp_login] at h
  cases hf : find_multifactor cause with
  | none => rw [hf] at h; simp at h
  | some mt =>
    rw [hf] at h
    simp only [] at h
    exact otp_success_origin t prompts mt login_server fuel 0 args s h

/-! Claim theorems. -/

/-- C4 (corrected): the code's append_post agrees with the specified
FormParameterSet.set semantics — replace the value of the entry already
carrying the name in place, otherwise append, leaving every other entry's
relative order untouched — provided the name being set does not occur among
the stored values (the linear scan of the flat array also inspects value
slots). The claim's unconditional form is refuted by c4_counterexample. -/
theorem c4_set_semantics (es : List (String × String)) (n v : String)
    (hval : ∀ p ∈ es, p.2 ≠ n) (hnd : (es.map Prod.fst).Nodup) :
    append_post (flattenEntries es) n v = flattenEntries (setEntry es n v) ∧
    (setEntry es n v).map Prod.fst =
      (if n ∈ es.map Prod.fst then es.map Prod.fst else es.map Prod.fst ++ [n]) ∧
    (∀ p ∈ setEntry es n v, p.1 = n → p.2 = v) :=
  ⟨append_post_flatten es n v hval, setEntry_names es n v, setEntry_value es n v hnd⟩

/-- C4 witness: a concrete update on a one-entry form. -/
theorem c4_witness :
    append_post (flattenEntries [("username", "bob")]) "uuid" "X" =
        flattenEntries (setEntry [("username", "bob")] "uuid" "X") ∧
    (setEntry [("username", "bob")] "uuid" "X").map Prod.fst =
      (if "uuid" ∈ [("username", "bob")].map Prod.fst then [("username", "bob")].map Prod.fst
       else [("username", "bob")].map Prod.fst ++ ["uuid"]) ∧
    (∀ p ∈ setEntry [("username", "bob")] "uuid" "X", p.1 = "uuid" → p.2 = "X") :=
  c4_set_semantics [("username", "bob")] "uuid" "X" (by decide) (by decide)

/-- C4 counterexample: on the state with the single entry ("xml", "2"),
setting the field name "2" matches the stored value slot, so the flat array
becomes ["xml", "2", "junk"] instead of the entry list with ("2", "junk")
appended; the claimed semantics fails for this state and name. -/
theorem c4_counterexample :
    append_post (flattenEntries [("xml", "2")]) "2" "junk" ≠
      flattenEntries (setEntry [("xml", "2")] "2" "junk") := by decide

/-- C6 (corrected): with no persisted id, forced generation returns and
persists one identifier of exactly 32 characters, each drawn from the
alphabet literal of the source (lowercase, uppercase, digits, and the
symbols of the claim); the literal has 66 characters, not 67, which
c6_counterexample records. -/
theorem c6_trust_id_format (cfg : Config) (rng : Nat → Nat) (h : cfg.trusted_id = none) :
    ∃ id, calculate_trust_id true cfg rng = (some id, ⟨some id⟩) ∧
      id.length = 32 ∧ ∀ c ∈ id.toList, c ∈ trust_alphabet.toList := by
  refine ⟨genTrustId rng, ?_, ?_, ?_⟩
  · rw [calculate_trust_id, h]
    rfl
  · rw [genTrustId]
    show ((List.range 32).map
      (fun i => trust_alphabet.toList.getD (range_rand (rng i) 0 66) 'a')).length = 32
    rw [List.length_map, List.length_range]
  · intro c hc
    rw [genTrustId, mk_toList] at hc
    obtain ⟨i, _, hgi⟩ := List.mem_map.mp hc
    rw [← hgi]
    apply getD_mem
    have h66 : trust_alphabet.toList.length = 66 := by decide
    rw [h66]
    show range_rand (rng i) 0 66 < 66
    rw [range_rand]
    have := Nat.mod_lt (rng i) (show 0 < 66 - 0 by decide)
    simpa using this

/-- C6 witness: forced generation from the empty configuration and the
all-zero random stream. -/
theorem c6_witness :
    ∃ id, calculate_trust_id true ⟨none⟩ (fun _ => 0) = (some id, ⟨some id⟩) ∧
      id.length = 32 ∧ ∀ c ∈ id.toList, c ∈ trust_alphabet.toList :=
  c6_trust_id_format ⟨none⟩ (fun _ => 0) rfl

/-- C6 counterexample: the alphabet that calculate_trust_id draws from has
66 characters, so there is no 67-character alphabet as the claim states. -/
theorem c6_counterexample :
    trust_alphabet.length = 66 ∧ trust_alphabet.length ≠ 67 := by decide

/-- C7 (confirmed): the table resolves "googleauthrequired" to the Google
Authenticator entry posting under "otp" and "sesameotprequired" to the
entry posting under "sesameotp", and any cause matching none of the five
error strings resolves to no entry, upon which otp_login never consults the
prompt stream and fails with the server's own (filtered) message. -/
theorem c7_multifactor_lookup (cause : String)
    (h : cause ∉ ["googleauthrequired", "otprequired", "sesameotprequired",
      "outofbandrequired", "microsoftauthrequired"]) :
    find_multifactor "googleauthrequired" =
      some ⟨"Google Authenticator Code", "googleauthrequired", "googleauthfailed", "otp"⟩ ∧
    find_multifactor "sesameotprequired" =
      some ⟨"Sesame OTP", "sesameotprequired", "sesameotpfailed", "sesameotp"⟩ ∧
    find_multifactor cause = none ∧
    ∀ (t : Transport) (prompts : Nat → Option String) (fuel : Nat) (login_server : String)
      (args : List String) (otp_name : Option String) (username : String)
      (reply : Option Response),
      otp_login t prompts fuel login_server args otp_name cause username reply =
        OtpResult.failure (error_message_opt reply) := by
  have h5 := h
  simp only [List.mem_cons, List.not_mem_nil, or_false, not_or] at h5
  obtain ⟨h1, h2, h3, h4, h6⟩ := h5
  have hnone : find_multifactor cause = none := by
    apply find_mf_none
    intro m hm
    simp only [multifactor_types, List.mem_cons, List.not_mem_nil, or_false] at hm
    rcases hm with rfl | rfl | rfl | rfl | rfl
    · exact fun he => h1 he.symm
    · exact fun he => h2 he.symm
    · exact fun he => h3 he.symm
    · exact fun he => h4 he.symm
    · exact fun he => h6 he.symm
  refine ⟨by decide, by decide, hnone, ?_⟩
  intro t prompts fuel login_server args otp_name username reply
  rw [otp_login, hnone]

/-- C7 witness: the unrecognized cause "bogus". -/
theorem c7_witness :
    find_multifactor "bogus" = none ∧
    otp_login no_transport no_prompts 1 "srv" [] none "bogus" "u" none =
      OtpResult.failure "Could not parse error message to login request." := by
  have h := c7_multifactor_lookup "bogus" (by decide)
  refine ⟨h.2.2.1, ?_⟩
  rw [h.2.2.2 no_transport no_prompts 1 "srv" [] none "u" none]
  rfl

/-- C9 (confirmed): a transport that returns no response makes
ordinary_login finish with no session and exactly the message "Unable to
post login request.", and a transport failing on every attempt makes the
whole login finish the same way. -/
theorem c9_transport_failure :
    (∀ (t : Transport) (server : String) (args : List String) (fuel : Nat),
       t server args = none →
       ordinary_login t (fuel+1) server args =
         OrdResult.finished none (some "Unable to post login request.")) ∧
    (∀ (prompts : Nat → Option String) (label : String) (cfg : Config) (rng : Nat → Nat)
       (fuel : Nat) (username : String) (fragment : Option String) (hash : String)
       (iterations : Nat) (trust : Bool),
       lastpass_login no_transport prompts label cfg rng (fuel+1) username fragment hash
         iterations trust = LpResult.done none (some "Unable to post login request.")) := by
  constructor
  · intro t server args fuel h
    rw [ordinary_login, h]
  · intro prompts label cfg rng fuel username fragment hash iterations trust
    rfl

/-- C9 witness: one failed attempt at the primary server. -/
theorem c9_witness :
    ordinary_login no_transport 1 LASTPASS_SERVER [] =
      OrdResult.finished none (some "Unable to post login request.") :=
  c9_transport_failure.1 no_transport LASTPASS_SERVER [] 0 rfl

/-- C10 (confirmed): a surfaced server message is filtered first — when it
contains the upgrade sentence, the surfaced text is a prefix of the message
that is immediately followed by that sentence (the sentence and everything
after it removed), and when it does not, the message passes unchanged — and
a response with no message field surfaces the fixed parse-failure text. -/
theorem c10_error_filtering (r : Response) :
    (r.message = none →
       error_message_str r = "Could not parse error message to login request.") ∧
    (∀ m, r.message = some m →
       ((¬ ∃ pre tail, m.toList = pre ++ upgrade_note.toList ++ tail) →
          error_message_str r = m) ∧
       (∀ pre tail, m.toList = pre ++ upgrade_note.toList ++ tail →
          ∃ tail2, m.toList =
            (error_message_str r).toList ++ upgrade_note.toList ++ tail2)) := by
  constructor
  · intro h
    rw [error_message_str, h]
  · intro m hm
    rw [error_message_str, hm]
    simp only []
    constructor
    · intro hno
      rw [filter_error_message]
      cases hf : firstOccur upgrade_note.toList m.toList with
      | none => rfl
      | some i =>
        exfalso
        obtain ⟨hlen, hpre⟩ := firstOccur_take_drop _ _ _ hf
        obtain ⟨rest, hrest⟩ := List.isPrefixOf_iff_prefix.mp hpre
        apply hno
        refine ⟨m.toList.take i, rest, ?_⟩
        have hcat : m.toList.take i ++ upgrade_note.toList ++ rest = m.toList := by
          rw [List.append_assoc, hrest, List.take_append_drop]
        exact hcat.symm
    · intro pre tail hdecomp
      obtain ⟨i, hf⟩ := firstOccur_of_decomp upgrade_note.toList pre tail
      rw [← hdecomp] at hf
      rw [filter_error_message, hf]
      simp only []
      obtain ⟨hlen, hpre⟩ := firstOccur_take_drop _ _ _ hf
      obtain ⟨rest, hrest⟩ := List.isPrefixOf_iff_prefix.mp hpre
      refine ⟨rest, ?_⟩
      rw [mk_toList]
      have hcat : m.toList.take i ++ upgrade_note.toList ++ rest = m.toList := by
        rw [List.append_assoc, hrest, List.take_append_drop]
      exact hcat.symm

/-- C10 witness: the bare reply surfaces the fixed text, and the upgrade
message is cut right before the upgrade sentence. -/
theorem c10_witness :
    error_message_str bare_reply = "Could not parse error message to login request." ∧
    ∃ tail2, upgrade_message.toList =
      (error_message_str upgrade_reply).toList ++ upgrade_note.toList ++ tail2 := by
  constructor
  · exact (c10_error_filtering bare_reply).1 rfl
  · exact ((c10_error_filtering upgrade_reply).2 upgrade_message rfl).2
      "Wrong code.".toList [] (by decide)

/-- C2 (corrected): ordinary_login re-runs the attempt, with the same
fields, on every response naming the alternate regional host, with no bound
on the number of hops: against a transport that always replies with the
redirection it exhausts any fuel bound n after performing exactly n hops,
so it neither stays within one hop nor terminates. -/
theorem c2_redirect_unbounded (t : Transport) (h : ∀ s a, t s a = some redirect_reply) :
    ∀ (fuel : Nat) (server : String) (args : List String),
      ordinary_login t fuel server args = OrdResult.out_of_fuel ∧
      ordinary_hops t fuel server args = fuel := by
  intro fuel
  induction fuel with
  | zero => intro server args; exact ⟨rfl, rfl⟩
  | succ n ih =>
    intro server args
    have hok : redirect_reply.ok_session = none := rfl
    have hred : redirect_reply.server = some "lastpass.eu" := rfl
    constructor
    · rw [ordinary_login, h server args]
      simp only []
      rw [hok]
      simp only []
      rw [if_pos hred]
      exact (ih "lastpass.eu" args).1
    · rw [ordinary_hops, h server args]
      simp only []
      rw [hok]
      simp only []
      rw [if_pos hred]
      rw [(ih "lastpass.eu" args).2]

/-- C2 witness: three units of fuel are exhausted after three hops. -/
theorem c2_witness :
    ordinary_login always_redirect 3 LASTPASS_SERVER [] = OrdResult.out_of_fuel ∧
    ordinary_hops always_redirect 3 LASTPASS_SERVER [] = 3 :=
  c2_redirect_unbounded always_redirect (fun _ _ => rfl) 3 LASTPASS_SERVER []

/-- C2 counterexample: against a server that keeps replying with the
redirection, the attempt performs three redirection hops within three
steps — more than the claimed at-most-one — and has not terminated. -/
theorem c2_counterexample :
    ordinary_hops always_redirect 3 LASTPASS_SERVER [] = 3 ∧
    ¬ ordinary_hops always_redirect 3 LASTPASS_SERVER [] ≤ 1 ∧
    ordinary_login always_redirect 3 LASTPASS_SERVER [] = OrdResult.out_of_fuel :=
  ⟨rfl, by decide, rfl⟩

/-- C3 (confirmed): whenever a cycle extracts and validates a session —
in the ordinary attempt, the multifactor retry loop, or the out-of-band
poll loop — the returned session's server equals the server name the cycle
posted to: the transport, queried at that very server with the cycle's
fields, yields the session-bearing reply; for the ordinary attempt the
stamped server is either the one asked for or the alternate regional host
reached by redirection. -/
theorem c3_session_server (t : Transport) (prompts : Nat → Option String) :
    (∀ (fuel : Nat) (server : String) (args : List String) (s : Session) (msg : Option String),
       ordinary_login t fuel server args = OrdResult.finished (some s) msg →
       (s.server = server ∨ s.server = "lastpass.eu") ∧
       ∃ rep, t s.server args = some rep ∧ rep.ok_session = some s.data) ∧
    (∀ (mt : MultifactorType) (login_server : String) (fuel i : Nat) (args : List String)
       (s : Session),
       otp_loop t prompts mt login_server fuel i args = OtpResult.success s →
       s.server = login_server ∧
       ∃ args2 rep, t login_server args2 = some rep ∧ rep.ok_session = some s.data) ∧
    (∀ (can : Bool) (oname login_server : String) (fuel : Nat) (args args2 : List String)
       (s : Session) (rep2 : Option Response),
       oob_poll_loop t can oname login_server fuel args = (OobResult.success s, args2, rep2) →
       s.server = login_server ∧
       ∃ args3 rep, t login_server args3 = some rep ∧ rep.ok_session = some s.data) :=
  ⟨fun fuel server args s msg h => ord_success_origin t fuel server args s msg h,
   fun mt ls fuel i args s h => otp_success_origin t prompts mt ls fuel i args s h,
   fun can oname ls fuel args args2 s rep2 h =>
     oob_success_origin t can oname ls fuel args s args2 rep2 h⟩

/-- C3 witness: scenario D — the primary host redirects and the alternate
host succeeds; the session's server is the alternate host, not the
original, and the transport at that host produced the validated session. -/
theorem c3_witness :
    ordinary_login redirecting_then_ok 2 LASTPASS_SERVER [] =
      OrdResult.finished (some ⟨⟨"tok"⟩, "lastpass.eu"⟩) none ∧
    ∃ rep, redirecting_then_ok "lastpass.eu" [] = some rep ∧
      rep.ok_session = some (⟨"tok"⟩ : SessionData) := by
  refine ⟨rfl, ?_⟩
  exact ((c3_session_server redirecting_then_ok no_prompts).1 2 LASTPASS_SERVER []
    ⟨⟨"tok"⟩, "lastpass.eu"⟩ none rfl).2

/-- C5 (confirmed): with both required fields present, a capabilities
string whose comma-separated token set contains "passcode" yields
canUsePasscode; if the set also contains "outofband" the attempt proceeds
into the poll loop, and if it does not, oob_login returns the
fallback-to-multifactor signal with the display name suffixed by " OTP",
untouched fields, and no transport activity. -/
theorem c5_capability_parsing (caps oname : String) (r : Response) (t : Transport)
    (fuel : Nat) (server : String) (args : List String)
    (hr : r.outofbandname = some oname) (hc : r.capabilities = some caps)
    (hp : "passcode" ∈ strtok_split caps) :
    has_capabilities caps "passcode" = true ∧
    ("outofband" ∈ strtok_split caps →
       oob_login t fuel server args r =
         oob_poll_loop t true oname server fuel (append_post args "outofbandrequest" "1")) ∧
    ("outofband" ∉ strtok_split caps →
       oob_login t fuel server args r = (OobResult.fallback (oname ++ " OTP"), args, some r)) := by
  have hcp : has_capabilities caps "passcode" = true :=
    has_capabilities_list_of_mem _ _ hp
  refine ⟨hcp, ?_, ?_⟩
  · intro ho
    have hco : has_capabilities caps "outofband" = true :=
      has_capabilities_list_of_mem _ _ ho
    rw [oob_login, hr, hc]
    simp only []
    rw [hcp, hco]
    simp
  · intro ho
    have hco : has_capabilities caps "outofband" = false :=
      has_capabilities_list_of_not_mem _ _ ho
    rw [oob_login, hr, hc]
    simp only []
    rw [hcp, hco]
    simp

/-- C5 witness: the capability strings "passcode,outofband" and "passcode"
on an out-of-band reply named "Duo". -/
theorem c5_witness :
    oob_login no_transport 1 "srv" [] oob_both_reply =
      oob_poll_loop no_transport true "Duo" "srv" 1 (append_post [] "outofbandrequest" "1") ∧
    oob_login no_transport 1 "srv" [] oob_passcode_reply =
      (OobResult.fallback ("Duo" ++ " OTP"), [], some oob_passcode_reply) := by
  constructor
  · exact (c5_capability_parsing "passcode,outofband" "Duo" oob_both_reply no_transport 1
      "srv" [] rfl rfl (by decide)).2.1 (by decide)
  · exact (c5_capability_parsing "passcode" "Duo" oob_passcode_reply no_transport 1
      "srv" [] rfl rfl (by decide)).2.2 (by decide)

/-- C1 (corrected): the initial form carries the "uuid" field exactly when
calculate_trust_id(trust) yields an identifier — that is, when one is
already persisted or when the trust flag forces generation of a fresh one,
which is then persisted before the first request is built; only with the
trust flag clear does no generation occur. The claim's version, in which
the flag never causes generation for the initial request, is refuted by
c1_counterexample. The hypothesis keeps the caller-supplied values distinct
from the reserved field names, which the flat-array scan conflates
otherwise. -/
theorem c1_uuid_attachment (username hash iters : String) (fragment : Option String)
    (trust : Bool) (cfg : Config) (rng : Nat → Nat)
    (hclean : ∀ v ∈ [xstrlower username, hash, iters] ++ fragment.toList,
       v ∉ login_field_names) :
    (∀ tr, (calculate_trust_id trust cfg rng).1 = some tr →
       (build_initial username hash iters fragment trust cfg rng).1 =
         base_args (xstrlower username) hash iters fragment ++ ["uuid", tr]) ∧
    ((calculate_trust_id trust cfg rng).1 = none →
       "uuid" ∉ (build_initial username hash iters fragment trust cfg rng).1) ∧
    (cfg.trusted_id = none → trust = false → calculate_trust_id trust cfg rng = (none, cfg)) ∧
    (cfg.trusted_id = none → trust = true →
       calculate_trust_id trust cfg rng = (some (genTrustId rng), ⟨some (genTrustId rng)⟩)) ∧
    (∀ t0, cfg.trusted_id = some t0 → calculate_trust_id trust cfg rng = (some t0, cfg)) := by
  have hne : ∀ v ∈ [xstrlower username, hash, iters] ++ fragment.toList, "uuid" ≠ v :=
    fun v hv he => hclean v hv (he ▸ (by decide : ("uuid" : String) ∈ login_field_names))
  have h0 : "uuid" ∉ ([] : List String) := by simp
  have h1 := not_mem_append_post _ "uuid" "xml" "2" (by decide) (by decide) h0
  have h2 := not_mem_append_post _ "uuid" "username" (xstrlower username) (by decide)
    (hne _ (by simp)) h1
  have h3 := not_mem_append_post _ "uuid" "hash" hash (by decide) (hne _ (by simp)) h2
  have h4 := not_mem_append_post _ "uuid" "iterations" iters (by decide) (hne _ (by simp)) h3
  have h5 := not_mem_append_post _ "uuid" "includeprivatekeyenc" "1" (by decide) (by decide) h4
  have h6 := not_mem_append_post _ "uuid" "method" "cli" (by decide) (by decide) h5
  have h7 := not_mem_append_post _ "uuid" "outofbandsupported" "1" (by decide) (by decide) h6
  have hu : "uuid" ∉ base_args (xstrlower username) hash iters fragment := by
    cases fragment with
    | none => exact h7
    | some f =>
      have h8 := not_mem_append_post _ "uuid" "alpfragmentid" f (by decide)
        (hne _ (by simp)) h7
      have h9 := not_mem_append_post _ "uuid" "calculatedfragmentid" f (by decide)
        (hne _ (by simp)) h8
      exact h9
  refine ⟨?_, ?_, ?_, ?_, ?_⟩
  · intro tr htr
    rw [build_initial, htr]
    simp only []
    exact append_post_fresh _ _ _ hu
  · intro htr
    rw [build_initial, htr]
    simp only []
    exact hu
  · intro ha hb
    rw [calculate_trust_id, ha, hb]
    rfl
  · intro ha hb
    rw [calculate_trust_id, ha, hb]
    rfl
  · intro t0 ha
    rw [calculate_trust_id, ha]

/-- C1 witness: a pre-existing persisted identifier is attached unchanged
as the final "uuid" field. -/
theorem c1_witness :
    (build_initial "bob" "h" "5" none true ⟨some "XYZ"⟩ (fun _ => 0)).1 =
      base_args (xstrlower "bob") "h" "5" none ++ ["uuid", "XYZ"] := by
  have h := c1_uuid_attachment "bob" "h" "5" none true ⟨some "XYZ"⟩ (fun _ => 0) (by decide)
  exact h.1 "XYZ" rfl

/-- C1 counterexample: with no persisted identifier and the trust flag set,
building the initial form generates and persists a fresh identifier and
attaches it as a "uuid" field, contradicting the claim that the field is
present exactly when an identifier already exists and that building the
first request never generates one. -/
theorem c1_counterexample :
    (⟨none⟩ : Config).trusted_id = none ∧
    "uuid" ∈ (build_initial "bob" "h" "5" none true ⟨none⟩ (fun _ => 0)).1 ∧
    (build_initial "bob" "h" "5" none true ⟨none⟩ (fun _ => 0)).2.trusted_id ≠ none := by
  refine ⟨rfl, by decide, by decide⟩

/-- Completed outcomes of lastpass_login: every result of the form done
either carries no session together with some error message, or a session
whose payload was extracted from a validated transport reply with the
server set to the very server that reply came from. The trust-time NULL
dereference path is not a done outcome — see the C8 theorem. -/
theorem done_failure_contract (t : Transport) (prompts : Nat → Option String) (label : String)
    (cfg : Config) (rng : Nat → Nat) (fuel : Nat) (username : String)
    (fragment : Option String) (hash : String) (iterations : Nat) (trust : Bool)
    (sess : Option Session) (msg : Option String)
    (h : lastpass_login t prompts label cfg rng fuel username fragment hash iterations trust =
      LpResult.done sess msg) :
    (sess = none → msg ≠ none) ∧
    (∀ s, sess = some s →
       ∃ srv args2 rep, t srv args2 = some rep ∧ rep.ok_session = some s.data ∧
         s.server = srv) := by
  rw [lastpass_login] at h
  cases hord : ordinary_login t fuel LASTPASS_SERVER
      (build_initial username hash (toString iterations) fragment trust cfg rng).1 with
  | out_of_fuel =>
    rw [hord] at h
    simp at h
  | finished s0 m0 =>
    rw [hord] at h
    simp only [] at h
    injection h with hs0 hm0
    subst hs0
    subst hm0
    constructor
    · intro hn
      rw [hn] at hord
      exact ord_none_msg t fuel _ _ _ hord
    · intro s hs
      rw [hs] at hord
      obtain ⟨_, rep, hrep, hok⟩ :=
        ord_success_origin t fuel LASTPASS_SERVER _ s _ hord
      exact ⟨s.server, _, rep, hrep, hok, rfl⟩
  | challenge cause ls reply =>
    rw [hord] at h
    simp only [] at h
    by_cases hcz : cause = "outofbandrequired"
    · rw [if_pos hcz] at h
      rcases hoob : oob_login t fuel ls
          (if trust then
            append_post
              (build_initial username hash (toString iterations) fragment trust cfg rng).1
              "trustlabel" label
           else (build_initial username hash (toString iterations) fragment trust cfg rng).1)
          reply with ⟨res, args2, rep2⟩
      rw [hoob] at h
      cases res with
      | success s =>
        simp only [] at h
        injection h with hs0 hm0
        subst hs0
        subst hm0
        constructor
        · intro hn
          simp at hn
        · intro s2 hs2
          injection hs2 with hs2
          subst hs2
          obtain ⟨hsrv, args3, rep, hrep, hok⟩ :=
            oob_login_success_origin t fuel ls _ reply s args2 rep2 hoob
          exact ⟨ls, args3, rep, hrep, hok, hsrv⟩
      | failure m =>
        simp only [] at h
        by_cases htr : trust = true
        · rw [if_pos htr] at h
          simp at h
        · rw [if_neg htr] at h
          injection h with hs0 hm0
          subst hs0
          subst hm0
          constructor
          · intro _
            simp
          · intro s2 hs2
            simp at hs2
      | out_of_fuel =>
        simp at h
      | fallback oname =>
        simp only [] at h
        cases hotp : otp_login t prompts fuel ls args2 (some oname) cause
            (xstrlower username) rep2 with
        | success s =>
          rw [hotp] at h
          simp only [] at h
          injection h with hs0 hm0
          subst hs0
          subst hm0
          constructor
          · intro hn
            simp at hn
          · intro s2 hs2
            injection hs2 with hs2
            subst hs2
            obtain ⟨hsrv, args3, rep, hrep, hok⟩ :=
              otp_login_success_origin t prompts fuel ls args2 (some oname) cause
                (xstrlower username) rep2 s hotp
            exact ⟨ls, args3, rep, hrep, hok, hsrv⟩
        | failure m =>
          rw [hotp] at h
          simp only [] at h
          injection h with hs0 hm0
          subst hs0
          subst hm0
          constructor
          · intro _
            simp
          · intro s2 hs2
            simp at hs2
        | out_of_fuel =>
          rw [hotp] at h
          simp at h
    · rw [if_neg hcz] at h
      cases hotp : otp_login t prompts fuel ls
          (if trust then
            append_post
              (build_initial username hash (toString iterations) fragment trust cfg rng).1
              "trustlabel" label
           else (build_initial username hash (toString iterations) fragment trust cfg rng).1)
          none cause (xstrlower username) (some reply) with
      | success s =>
        rw [hotp] at h
        simp only [] at h
        injection h with hs0 hm0
        subst hs0
        subst hm0
        constructor
        · intro hn
          simp at hn
        · intro s2 hs2
          injection hs2 with hs2
          subst hs2
          obtain ⟨hsrv, args3, rep, hrep, hok⟩ :=
            otp_login_success_origin t prompts fuel ls _ none cause
              (xstrlower username) (some reply) s hotp
          exact ⟨ls, args3, rep, hrep, hok, hsrv⟩
      | failure m =>
        rw [hotp] at h
        simp only [] at h
        injection h with hs0 hm0
        subst hs0
        subst hm0
        constructor
        · intro _
          simp
        · intro s2 hs2
          simp at hs2
      | out_of_fuel =>
        rw [hotp] at h
        simp at h

/-- C8 (code_bug): the no-session-plus-message contract fails on a
reachable path of the program. With trust requested, an out-of-band login
whose poll gets no transport response (and offers no passcode fallback)
makes oob_login return an error with a NULL session, and the trust.php
enrollment call then evaluates session->token on that NULL session: the
process dereferences NULL instead of handing the caller the error message.
The same input without the trust flag returns no session together with the
documented failure message, as the claim demands. -/
theorem c8_token_null_deref :
    lastpass_login oob_then_fail no_prompts "label" ⟨none⟩ (fun _ => 0) 2 "u" none "h" 5 true =
      LpResult.null_deref ∧
    lastpass_login oob_then_fail no_prompts "label" ⟨none⟩ (fun _ => 0) 2 "u" none "h" 5 false =
      LpResult.done none (some "Unable to post login request.") :=
  ⟨rfl, rfl⟩

end LastPassLogin
